import Mathlib

/-!
# Verification of the DNS server's message codec and resolution engine

Shallow embedding of the Rust sources `src/dns_hdr.rs` and `src/dns_server.rs`
of the `codecrafters-dns-server-rust` repository.  Bytes are modelled as `Nat`
values (< 256 where the source's `u8` type forces it, with explicit `% 256`
truncation at every point where the source performs an `as u8` / `as u16`
conversion or a `u8` shift that can wrap).  Fallible code — nom parsers,
`anyhow::Result`, and slice-indexing panics — is modelled with `Option`:
`none` is an error/panic, `some` is success.  Buffers are `List Nat`.
-/

/-- ASCII bytes of a string literal (used for the domain-string keys the
source writes as Rust `String` literals). -/
def str (s : String) : List Nat := s.data.map Char.toNat

/-- Returns `true` iff `b` is a UTF-8 continuation byte (`0b10xxxxxx`), as required by
`std::str::from_utf8`. -/
def utf8Cont (b : Nat) : Bool := 128 ≤ b && b ≤ 191

/-- Faithful model of Rust `std::str::from_utf8(..).is_ok()` on a byte slice:
strict UTF-8 validity (rejecting overlong forms, surrogates and code points
above U+10FFFF).  `Query::domain` uses it to drop non-UTF-8 labels. -/
def validUtf8 : List Nat → Bool
  | [] => true
  | b :: rest =>
    if b ≤ 127 then validUtf8 rest
    else if 194 ≤ b && b ≤ 223 then
      match rest with
      | b1 :: r => utf8Cont b1 && validUtf8 r
      | [] => false
    else if b = 224 then
      match rest with
      | b1 :: b2 :: r => (160 ≤ b1 && b1 ≤ 191) && utf8Cont b2 && validUtf8 r
      | _ => false
    else if 225 ≤ b && b ≤ 236 then
      match rest with
      | b1 :: b2 :: r => utf8Cont b1 && utf8Cont b2 && validUtf8 r
      | _ => false
    else if b = 237 then
      match rest with
      | b1 :: b2 :: r => (128 ≤ b1 && b1 ≤ 159) && utf8Cont b2 && validUtf8 r
      | _ => false
    else if 238 ≤ b && b ≤ 239 then
      match rest with
      | b1 :: b2 :: r => utf8Cont b1 && utf8Cont b2 && validUtf8 r
      | _ => false
    else if b = 240 then
      match rest with
      | b1 :: b2 :: b3 :: r => (144 ≤ b1 && b1 ≤ 191) && utf8Cont b2 && utf8Cont b3 && validUtf8 r
      | _ => false
    else if 241 ≤ b && b ≤ 243 then
      match rest with
      | b1 :: b2 :: b3 :: r => utf8Cont b1 && utf8Cont b2 && utf8Cont b3 && validUtf8 r
      | _ => false
    else if b = 244 then
      match rest with
      | b1 :: b2 :: b3 :: r => (128 ≤ b1 && b1 ≤ 143) && utf8Cont b2 && utf8Cont b3 && validUtf8 r
      | _ => false
    else false

/-- The `Flags` struct of `dns_hdr.rs` (seven `u8` bit-fields of the second
header word).  Fields are `Nat`; the `u8` truncations of the source appear
explicitly in `compress_u16`. -/
structure Flags where
  qr : Nat
  opcode : Nat
  aa : Nat
  tc : Nat
  rd : Nat
  ra : Nat
  rcode : Nat
deriving Repr, DecidableEq

/-- Model of `Flags::compress_u16`: `flags_h = (qr << 7) | (opcode << 3) | (aa << 2) |
(tc << 1) | rd` and `flags_l = (ra << 7) | rcode`, both in wrapping `u8`
arithmetic (hence the `% 256`), then `(flags_h as u16) << 8 | flags_l`. -/
def Flags.compress_u16 (f : Flags) : Nat :=
  let flags_h : Nat :=
    ((f.qr <<< 7) % 256) ||| ((f.opcode <<< 3) % 256) ||| ((f.aa <<< 2) % 256) |||
      ((f.tc <<< 1) % 256) ||| (f.rd % 256)
  let flags_l : Nat := ((f.ra <<< 7) % 256) ||| (f.rcode % 256)
  (flags_h <<< 8) ||| flags_l

/-- Model of `Flags::parse_flags`: the nom bit-level parser taking 1,4,1,1,1,1,3,4 bits
(most significant first) from the 16-bit big-endian flag word `w`; the 3
reserved bits are taken and discarded. -/
def parse_flags (w : Nat) : Flags :=
  { qr := (w >>> 15) &&& 1
    opcode := (w >>> 11) &&& 15
    aa := (w >>> 10) &&& 1
    tc := (w >>> 9) &&& 1
    rd := (w >>> 8) &&& 1
    ra := (w >>> 7) &&& 1
    rcode := w &&& 15 }

/-- The declared bit-widths of the `Flags` fields (spec §3: `qr:1, opcode:4,
aa:1, tc:1, rd:1, ra:1, rcode:4`). -/
def Flags.inRange (f : Flags) : Prop :=
  f.qr ≤ 1 ∧ f.opcode ≤ 15 ∧ f.aa ≤ 1 ∧ f.tc ≤ 1 ∧ f.rd ≤ 1 ∧ f.ra ≤ 1 ∧ f.rcode ≤ 15

instance (f : Flags) : Decidable f.inRange := by
  unfold Flags.inRange; infer_instance

/-! ## Byte-level primitives (nom combinators used by the source) -/

/-- nom `be_u8`: one byte. -/
def be_u8 : List Nat → Option (Nat × List Nat)
  | [] => none
  | b :: r => some (b, r)

/-- nom `be_u16`: two bytes, big-endian value. -/
def be_u16 : List Nat → Option (Nat × List Nat)
  | b0 :: b1 :: r => some (b0 * 256 + b1, r)
  | _ => none

/-- nom `be_u32`: four bytes, big-endian value. -/
def be_u32 : List Nat → Option (Nat × List Nat)
  | b0 :: b1 :: b2 :: b3 :: r => some (((b0 * 256 + b1) * 256 + b2) * 256 + b3, r)
  | _ => none

/-- nom `length_data(be_u16)`: a u16 length prefix followed by that many raw
bytes (used for an answer's rdata). -/
def length_data_u16 (buf : List Nat) : Option (List Nat × List Nat) :=
  match be_u16 buf with
  | none => none
  | some (n, r) => if n ≤ r.length then some (r.take n, r.drop n) else none

/-- Model of `parse_labels` of `dns_hdr.rs`: nom
`many_till(length_data(be_u8), tag "\x00")`.  Each round first tries the
zero-byte terminator; otherwise any byte `n ≠ 0` — whatever its top two bits —
is a plain label length and `n` raw bytes are consumed.  `Answer::from_bytes`
inlines exactly the same `many_till(length_data(be_u8), tag "\x00")`. -/
def parse_labels_go : Nat → List Nat → Option (List (List Nat) × List Nat)
  | _, [] => none
  | fuel + 1, n :: r =>
    if n = 0 then some ([], r)
    else if n ≤ r.length then
      match parse_labels_go fuel (r.drop n) with
      | none => none
      | some (ls, rest) => some (r.take n :: ls, rest)
    else none
  | 0, _ :: _ => none

/-- The function `parse_labels` proper: run with `buf.length` fuel, which always suffices
(each round consumes at least one byte; `parse_labels_go_fuel` shows the
result does not depend on the fuel once it is at least `buf.length`, so the
fuel-exhaustion branch is dead). -/
def parse_labels (buf : List Nat) : Option (List (List Nat) × List Nat) :=
  parse_labels_go buf.length buf

/-! ## Queries, answers, messages -/

/-- The `Query` struct (name as decoded label byte-slices, qtype, qclass). -/
structure Query where
  name : List (List Nat)
  qtype : Nat
  qclass : Nat
deriving Repr, DecidableEq

/-- The `Answer` struct (resource record: name, type, class, TTL, rdata). -/
structure Answer where
  name : List (List Nat)
  qtype : Nat
  qclass : Nat
  ttl : Nat
  rddata : List Nat
deriving Repr, DecidableEq

/-- Model of `Answer::new` (with `RRType`/`RRClass` discriminants already as numbers:
`A = 1`, `IN = 1`). -/
def Answer.new (name : List (List Nat)) (qtype qclass ttl : Nat) (data : List Nat) : Answer :=
  { name := name, qtype := qtype, qclass := qclass, ttl := ttl, rddata := data }

/-- The `DNSHdr` struct: header fields plus decoded sections. -/
structure DNSHdr where
  id : Nat
  flags : Flags
  nscount : Nat
  arcount : Nat
  queries : List Query
  answers : List Answer
deriving Repr, DecidableEq

/-- Model of `DNSHdr::new`: nscount and arcount are always 0. -/
def DNSHdr.new (id : Nat) (flags : Flags) (queries : List Query) (answers : List Answer) :
    DNSHdr :=
  { id := id, flags := flags, nscount := 0, arcount := 0, queries := queries, answers := answers }

/-- Model of `BytesMut::put_u16(x)`: the two big-endian bytes of `x as u16`. -/
def u16Bytes (x : Nat) : List Nat := [x / 256 % 256, x % 256]

/-- Model of `BytesMut::put_u32(x)`: the four big-endian bytes of `x as u32`. -/
def u32Bytes (x : Nat) : List Nat :=
  [x / 16777216 % 256, x / 65536 % 256, x / 256 % 256, x % 256]

/-- The label wire form written by `Query::to_bytes`/`Answer::to_bytes`:
`put_u8(l.len() as u8)` then the raw label bytes, for each label. -/
def encodeName (name : List (List Nat)) : List Nat :=
  (name.map (fun l => l.length % 256 :: l)).flatten

/-- Model of `Query::to_bytes`: labels, zero terminator, qtype, qclass. -/
def Query.to_bytes (q : Query) : List Nat :=
  encodeName q.name ++ [0] ++ u16Bytes q.qtype ++ u16Bytes q.qclass

/-- Model of `Answer::to_bytes`: labels, zero terminator, type, class, ttl, rdata
length, rdata. -/
def Answer.to_bytes (a : Answer) : List Nat :=
  encodeName a.name ++ [0] ++ u16Bytes a.qtype ++ u16Bytes a.qclass ++ u32Bytes a.ttl ++
    u16Bytes a.rddata.length ++ a.rddata

/-- Model of the `Query::from_bytes(buf, n)` element parser: `parse_labels`, then two
big-endian u16 fields. -/
def Query.parseOne (buf : List Nat) : Option (Query × List Nat) :=
  match parse_labels buf with
  | none => none
  | some (labels, r1) =>
    match be_u16 r1 with
    | none => none
    | some (qt, r2) =>
      match be_u16 r2 with
      | none => none
      | some (qc, r3) => some ({ name := labels, qtype := qt, qclass := qc }, r3)

/-- Model of `Query::from_bytes`: nom `many_m_n(n, n, ..)` — exactly `n` queries. -/
def Query.from_bytes : Nat → List Nat → Option (List Query × List Nat)
  | 0, buf => some ([], buf)
  | n + 1, buf =>
    match Query.parseOne buf with
    | none => none
    | some (q, r) =>
      match Query.from_bytes n r with
      | none => none
      | some (qs, r') => some (q :: qs, r')

/-- Model of the `Answer::from_bytes` element parser: the same label loop, type, class,
u32 ttl, and u16-length-prefixed rdata. -/
def Answer.parseOne (buf : List Nat) : Option (Answer × List Nat) :=
  match parse_labels buf with
  | none => none
  | some (labels, r1) =>
    match be_u16 r1 with
    | none => none
    | some (qt, r2) =>
      match be_u16 r2 with
      | none => none
      | some (qc, r3) =>
        match be_u32 r3 with
        | none => none
        | some (ttl, r4) =>
          match length_data_u16 r4 with
          | none => none
          | some (rddata, r5) =>
            some ({ name := labels, qtype := qt, qclass := qc, ttl := ttl, rddata := rddata }, r5)

/-- Model of `Answer::from_bytes`: exactly `n` resource records. -/
def Answer.from_bytes : Nat → List Nat → Option (List Answer × List Nat)
  | 0, buf => some ([], buf)
  | n + 1, buf =>
    match Answer.parseOne buf with
    | none => none
    | some (a, r) =>
      match Answer.from_bytes n r with
      | none => none
      | some (as', r') => some (a :: as', r')

/-- Model of `DNSHdr::to_bytes`: 12-byte header (id, packed flags, the four counts —
QDCOUNT/ANCOUNT derived from the sections' lengths) followed by the encoded
queries and answers.  It never emits compression pointers. -/
def DNSHdr.to_bytes (m : DNSHdr) : List Nat :=
  u16Bytes m.id ++ u16Bytes m.flags.compress_u16 ++ u16Bytes m.queries.length ++
    u16Bytes m.answers.length ++ u16Bytes m.nscount ++ u16Bytes m.arcount ++
    (m.queries.map Query.to_bytes).flatten ++ (m.answers.map Answer.to_bytes).flatten

/-- Model of `DNSHdr::from_bytes`: header fields (the flag word via the bit-level
parser), then exactly QDCOUNT queries and ANCOUNT answers; trailing bytes are
returned as the unconsumed rest. -/
def DNSHdr.from_bytes (buf : List Nat) : Option (DNSHdr × List Nat) :=
  match be_u16 buf with
  | none => none
  | some (id, r1) =>
    match be_u16 r1 with
    | none => none
    | some (w, r2) =>
      match be_u16 r2 with
      | none => none
      | some (qdcount, r3) =>
        match be_u16 r3 with
        | none => none
        | some (ancount, r4) =>
          match be_u16 r4 with
          | none => none
          | some (nscount, r5) =>
            match be_u16 r5 with
            | none => none
            | some (arcount, r6) =>
              match Query.from_bytes qdcount r6 with
              | none => none
              | some (queries, r7) =>
                match Answer.from_bytes ancount r7 with
                | none => none
                | some (answers, r8) =>
                  some ({ id := id, flags := parse_flags w, nscount := nscount,
                          arcount := arcount, queries := queries, answers := answers }, r8)

/-! ## Name decompression (`DNSHdr::decompress_names`) -/

/-- The loop body of `DNSHdr::decompress_names`, with explicit fuel.  The
source iterates `ptr` over the buffer: a tag byte with `b & 0b1100_0000 != 0`
(either of the top two bits) is treated as a 2-byte compression pointer — the
bytes at the referenced offset up to the first `0x00` are copied, a zero and
the following 4 bytes (qtype/qclass) are appended, and `ptr` skips 6 bytes; a
zero byte copies itself plus 4 bytes; any other byte is a label length.
Offsets never jump: `ptr` strictly increases, the pointer target is only
copied from.  Result: `none` = fuel exhausted (never happens with fuel ≥
`buf.length - ptr`, a fact proved below); `some none` = error
(out-of-bounds slice panic or the `ensure!` failure); `some (some acc)` = the
decompressed bytes. -/
def decompressGo (buf : List Nat) : Nat → Nat → List Nat → Option (Option (List Nat))
  | 0, ptr, acc => if ptr < buf.length then none else some (some acc)
  | fuel + 1, ptr, acc =>
    if ptr < buf.length then
      let b := buf.getD ptr 0
      if b &&& 192 ≠ 0 then
        if ptr + 1 < buf.length then
          let b_l := buf.getD (ptr + 1) 0
          let ptr_offset := ((b &&& 63) <<< 8) + b_l
          if ptr_offset < buf.length then
            if ptr + 6 ≤ buf.length then
              decompressGo buf fuel (ptr + 6)
                (acc ++ ((buf.drop ptr_offset).takeWhile (fun x => x ≠ 0)) ++ [0] ++
                  ((buf.drop (ptr + 2)).take 4))
            else some none
          else some none
        else some none
      else if b = 0 then
        if ptr + 5 ≤ buf.length then
          decompressGo buf fuel (ptr + 5) (acc ++ [0] ++ ((buf.drop (ptr + 1)).take 4))
        else some none
      else
        if ptr + 1 + b ≤ buf.length then
          decompressGo buf fuel (ptr + 1 + b) (acc ++ [b] ++ ((buf.drop (ptr + 1)).take b))
        else some none
    else some (some acc)

/-- Model of `DNSHdr::decompress_names`: copy the 12-byte header (panics — `none` — on
shorter buffers), then run the loop from offset 12.  `buf.length` fuel always
suffices (proved with the C1 development below), so the fuel-exhaustion case is dead. -/
def DNSHdr.decompress_names (buf : List Nat) : Option (List Nat) :=
  if buf.length < 12 then none
  else
    match decompressGo buf buf.length 12 (buf.take 12) with
    | some r => r
    | none => none

/-! ## The server (`dns_server.rs`) -/

/-- The record store `rr_db: HashMap<String, (u32, [u8;4])>`, modelled as an
association list whose `get` returns the first (most recent) binding — the
observable lookup semantics of the hash map. -/
abbrev Store := List (List Nat × (Nat × List Nat))

/-- Model of `HashMap::get`. -/
def Store.get : Store → List Nat → Option (Nat × List Nat)
  | [], _ => none
  | (k, v) :: s, k' => if k = k' then some v else Store.get s k'

/-- Model of `HashMap::insert` (up to `get`-observability: the new binding shadows any
older one). -/
def Store.insert (s : Store) (k : List Nat) (v : Nat × List Nat) : Store := (k, v) :: s

/-- Model of `HashMap::extend`: insert every pair in order. -/
def Store.extend (s : Store) (kvs : List (List Nat × (Nat × List Nat))) : Store :=
  kvs.foldl (fun acc kv => acc.insert kv.1 kv.2) s

/-- The store `DNSServer::new` seeds: codecrafters.io ↦ (60, 192.168.10.10),
stackoverflow.com ↦ (60, 192.168.10.20). -/
def initStore : Store :=
  [(str "codecrafters.io", (60, [192, 168, 10, 10])),
   (str "stackoverflow.com", (60, [192, 168, 10, 20]))]

/-- Model of `Query::domain`: keep the labels that are valid UTF-8, join with `"."`
(byte 46). -/
def Query.domain (q : Query) : List Nat :=
  List.intercalate [46] (q.name.filterMap (fun l => if validUtf8 l then some l else none))

/-- The upstream side of `Resolver::resolve_a`, abstracted: the socket
send/recv round-trip plus the extraction of `(ttl, addr)` from the first
answer of the upstream reply is external I/O, modelled as the oracle
`upstream` (a function of the queried name); `rand::thread_rng().gen()` is
modelled as the id stream `idGen` (the k-th call draws `idGen k`). -/
structure Resolver where
  upstream : List (List Nat) → Nat × List Nat
  idGen : Nat → Nat

/-- The request `Resolver::resolve_a` builds and sends: a fresh id, flags all
zero (in particular `rd = 0`, opcode QUERY), a single A/IN question, no
answers. -/
def resolveARequest (id : Nat) (name : List (List Nat)) : DNSHdr :=
  DNSHdr.new id { qr := 0, opcode := 0, aa := 0, tc := 0, rd := 0, ra := 0, rcode := 0 }
    [{ name := name, qtype := 1, qclass := 1 }] []

/-- The `None`-resolver arm of the opcode-0 branch of `DNSServer::start`: for
each question, look up the FIXED key `"codecrafters.io"` (the source
hard-codes the literal) and build an A/IN answer from the question's own name
and that entry's ttl and address. -/
def answersNoResolver (rr_db : Store) (queries : List Query) : List Answer :=
  queries.filterMap (fun q =>
    (rr_db.get (str "codecrafters.io")).map (fun td => Answer.new q.name 1 1 td.1 td.2))

/-- The `Some(resolver)` arm: filter the questions whose domain is absent from
the store, send one upstream query per such question (collecting the results),
extend the store with `(domain, (ttl, addr))`, then answer every question
whose domain the extended store now holds.  Returns (sent upstream requests,
extended store, answers). -/
def resolverAnswers (res : Resolver) (rr_db : Store) (queries : List Query) :
    List DNSHdr × Store × List Answer :=
  let pending := queries.filter (fun q => !(rr_db.get q.domain).isSome)
  let sent := pending.enum.map (fun kq => resolveARequest (res.idGen kq.1) kq.2.name)
  let ans := pending.map (fun q => (q, res.upstream q.name))
  let rr_db2 := rr_db.extend (ans.map (fun qa => (qa.1.domain, qa.2)))
  let answs := queries.filterMap (fun q =>
    (rr_db2.get q.domain).map (fun td => Answer.new q.name 1 1 td.1 td.2))
  (sent, rr_db2, answs)

/-- One iteration of `DNSServer::start` on a decoded request: opcode 0 answers
with `qr=1, aa=0, tc=0, ra=0, rcode=OK` (opcode and rd carried over) and the
assembled answers; any other opcode echoes the questions with
`rcode = NotImplemted (4)` and no answers.  Returns (upstream requests sent,
new store, response message). -/
def handleRequest (resolver : Option Resolver) (rr_db : Store) (request : DNSHdr) :
    List DNSHdr × Store × DNSHdr :=
  match request.flags.opcode with
  | 0 =>
    match resolver with
    | none =>
      ([], rr_db,
        DNSHdr.new request.id
          { request.flags with qr := 1, aa := 0, tc := 0, ra := 0, rcode := 0 }
          request.queries (answersNoResolver rr_db request.queries))
    | some res =>
      ((resolverAnswers res rr_db request.queries).1,
        (resolverAnswers res rr_db request.queries).2.1,
        DNSHdr.new request.id
          { request.flags with qr := 1, aa := 0, tc := 0, ra := 0, rcode := 0 }
          request.queries (resolverAnswers res rr_db request.queries).2.2)
  | _ =>
    ([], rr_db,
      DNSHdr.new request.id
        { request.flags with qr := 1, aa := 0, tc := 0, ra := 0, rcode := 4 }
        request.queries [])

/-- The buffer of the `test_query_decode` unit test: a 12-byte header
(QDCOUNT = 2) and two questions — `3 "abc" 17 "longassdomainname" 3 "com" 0`
qtype 1 qclass 1, then `3 "def"` followed by the compression pointer
`[192, 16]` to offset 16 and qtype 1 qclass 1. -/
def testBuf : List Nat :=
  [212, 158, 1, 0, 0, 2, 0, 0, 0, 0, 0, 0,
   3, 97, 98, 99,
   17, 108, 111, 110, 103, 97, 115, 115, 100, 111, 109, 97, 105, 110, 110, 97, 109, 101,
   3, 99, 111, 109, 0, 0, 1, 0, 1,
   3, 100, 101, 102, 192, 16, 0, 1, 0, 1]

/-- A crafted buffer whose compression-pointer chain forms a cycle: the bytes
`[192, 14]` at offset 12 are a pointer to offset 14, and the bytes `[192, 12]`
at offset 14 are a pointer back to offset 12. -/
def cycBuf : List Nat := List.replicate 12 0 ++ [192, 14, 192, 12, 1, 1]

/-- A buffer whose tag byte at offset 12 is `64 = 0b01000000`: one top bit
set; `decompress_names` treats it as a compression pointer (to offset 14). -/
def ptr64Buf : List Nat := List.replicate 12 0 ++ [64, 14, 1, 2, 0, 9]

/-- A concrete resolver oracle used to instantiate the forwarding theorem. -/
def exampleResolver : Resolver :=
  { upstream := fun _ => (30, [1, 2, 3, 4]), idGen := fun k => 40 + k }

/-- A concrete opcode-0 request for the unresolved domain `example.com`. -/
def exampleReq : DNSHdr :=
  DNSHdr.new 9 { qr := 0, opcode := 0, aa := 0, tc := 0, rd := 1, ra := 0, rcode := 0 }
    [{ name := [str "example", str "com"], qtype := 1, qclass := 1 }] []

/-! ## Validity (the spec's notion of a valid message, §3/§8) -/

/-- A valid domain name: labels of 1–63 raw bytes each. -/
def validName (name : List (List Nat)) : Prop :=
  ∀ l ∈ name, 1 ≤ l.length ∧ l.length ≤ 63

/-- Total encoded length of a name: length prefixes + labels + terminator. -/
def encodedNameLen (name : List (List Nat)) : Nat :=
  (name.map (fun l => l.length + 1)).sum + 1

/-- A valid question: valid name of encoded length ≤ 255, 16-bit fields. -/
def Query.valid (q : Query) : Prop :=
  validName q.name ∧ encodedNameLen q.name ≤ 255 ∧ q.qtype < 65536 ∧ q.qclass < 65536

/-- A valid resource record: valid name of encoded length ≤ 255, 16-bit type,
class and rdata length, 32-bit ttl. -/
def Answer.valid (a : Answer) : Prop :=
  validName a.name ∧ encodedNameLen a.name ≤ 255 ∧ a.qtype < 65536 ∧ a.qclass < 65536 ∧
    a.ttl < 4294967296 ∧ a.rddata.length < 65536

/-- A valid message: in-range header fields, 16-bit section counts, valid
questions and answers. -/
def DNSHdr.valid (m : DNSHdr) : Prop :=
  m.id < 65536 ∧ m.flags.inRange ∧ m.nscount < 65536 ∧ m.arcount < 65536 ∧
    m.queries.length < 65536 ∧ m.answers.length < 65536 ∧
    (∀ q ∈ m.queries, q.valid) ∧ (∀ a ∈ m.answers, a.valid)

instance (q : Query) : Decidable q.valid := by
  unfold Query.valid validName encodedNameLen; infer_instance

instance (a : Answer) : Decidable a.valid := by
  unfold Answer.valid validName encodedNameLen; infer_instance

instance (m : DNSHdr) : Decidable m.valid := by
  unfold DNSHdr.valid; infer_instance

/-! ## Flags codec lemmas -/

set_option maxHeartbeats 1600000 in
/-- Exhaustive check of the flags round-trip and the 16-bit bound over all
field values within the declared bit-widths. -/
theorem flags_rt_fin : ∀ (a : Fin 2) (b : Fin 16) (c d e g : Fin 2) (k : Fin 16),
    parse_flags (Flags.compress_u16 ⟨a, b, c, d, e, g, k⟩) = ⟨a, b, c, d, e, g, k⟩ ∧
      Flags.compress_u16 ⟨a, b, c, d, e, g, k⟩ < 65536 := by decide

/-- C6: for every `Flags` value whose fields are confined to their declared
bit-widths (`qr, aa, tc, rd, ra ≤ 1`; `opcode, rcode ≤ 15`), unpacking the
packed 16-bit form returns the same value:
`parse_flags (compress_u16 f) = f`. -/
theorem C6_flags_roundtrip (f : Flags) (h : f.inRange) : parse_flags f.compress_u16 = f := by
  obtain ⟨qr, op, aa, tc, rd, ra, rc⟩ := f
  simp only [Flags.inRange] at h
  obtain ⟨h1, h2, h3, h4, h5, h6, h7⟩ := h
  exact (flags_rt_fin ⟨qr, by omega⟩ ⟨op, by omega⟩ ⟨aa, by omega⟩ ⟨tc, by omega⟩
    ⟨rd, by omega⟩ ⟨ra, by omega⟩ ⟨rc, by omega⟩).1

/-- Witness for C6 at a concrete in-range flags value. -/
theorem C6_witness :
    parse_flags (Flags.compress_u16 ⟨1, 15, 0, 1, 0, 1, 7⟩) = ⟨1, 15, 0, 1, 0, 1, 7⟩ :=
  C6_flags_roundtrip ⟨1, 15, 0, 1, 0, 1, 7⟩ (by decide)

/-- C7 counterexample: for the flags value with the out-of-range
`rcode = 16`, the packed word has reserved bit 4 set — `compress_u16` does
NOT zero the reserved bits regardless of field contents. -/
theorem C7_counterexample :
    ¬((Flags.compress_u16 ⟨0, 0, 0, 0, 0, 0, 16⟩ >>> 4) &&& 7 = 0) := by decide

/-- C7 (amended): for every `Flags` value whose `rcode` fits its declared
4-bit width (`rcode ≤ 15`) — the other six fields unrestricted — the packed
word's three reserved bits (bits 4..6 of the low byte) are zero. -/
theorem C7_reserved_bits (f : Flags) (h : f.rcode ≤ 15) :
    (f.compress_u16 >>> 4) &&& 7 = 0 := by
  have h256 : (256 : Nat) = 2 ^ 8 := by norm_num
  have hrc : ∀ j, 4 ≤ j → f.rcode.testBit j = false := by
    intro j hj
    refine Nat.testBit_lt_two_pow (lt_of_le_of_lt h ?_)
    calc (15 : Nat) < 2 ^ 4 := by norm_num
      _ ≤ 2 ^ j := Nat.pow_le_pow_right (by norm_num) hj
  have hb : ∀ j, 4 ≤ j → j < 7 → f.compress_u16.testBit j = false := by
    intro j hj4 hj7
    unfold Flags.compress_u16
    simp only [h256, Nat.testBit_or, Nat.testBit_shiftLeft, Nat.testBit_mod_two_pow]
    simp [hrc j hj4, show ¬(8 ≤ j) by omega, show ¬(7 ≤ j) by omega, show j < 8 by omega]
  apply Nat.eq_of_testBit_eq
  intro i
  simp only [Nat.testBit_and, Nat.testBit_shiftRight, Nat.zero_testBit, Bool.and_eq_false_iff]
  rcases i with _ | _ | _ | i
  · exact Or.inl (hb 4 (by omega) (by omega))
  · exact Or.inl (hb 5 (by omega) (by omega))
  · exact Or.inl (hb 6 (by omega) (by omega))
  · refine Or.inr (Nat.testBit_lt_two_pow ?_)
    calc (7 : Nat) < 2 ^ 3 := by norm_num
      _ ≤ 2 ^ (i + 3) := Nat.pow_le_pow_right (by norm_num) (by omega)

/-- Witness for C7 (amended) at a flags value whose other fields are wildly
out of range. -/
theorem C7_witness : (Flags.compress_u16 ⟨7, 99, 3, 2, 1, 5, 12⟩ >>> 4) &&& 7 = 0 :=
  C7_reserved_bits ⟨7, 99, 3, 2, 1, 5, 12⟩ (by decide)

/-! ## Decompression termination and behaviour -/

/-- C1 (amended): `decompress_names` always terminates in bounded time — the
loop position strictly increases, so `buf.length - ptr` loop steps (fuel)
always suffice, on EVERY input, cyclic pointer chains included (pointer
targets are only copied from, never jumped to).  It does not, however, always
return an error on cyclic inputs: see the counterexample. -/
theorem C1_terminates_bounded :
    ∀ (fuel : Nat) (buf : List Nat) (ptr : Nat) (acc : List Nat),
      buf.length ≤ ptr + fuel → (decompressGo buf fuel ptr acc).isSome = true := by
  intro fuel
  induction fuel with
  | zero =>
    intro buf ptr acc h
    simp [decompressGo, show ¬(ptr < buf.length) by omega]
  | succ fuel ih =>
    intro buf ptr acc h
    unfold decompressGo
    by_cases h1 : ptr < buf.length
    case neg => simp [h1]
    rw [if_pos h1]
    by_cases hb : buf.getD ptr 0 &&& 192 ≠ 0
    · rw [if_pos hb]
      by_cases h2 : ptr + 1 < buf.length
      · rw [if_pos h2]
        by_cases h3 : ((buf.getD ptr 0 &&& 63) <<< 8) + buf.getD (ptr + 1) 0 < buf.length
        · rw [if_pos h3]
          by_cases h4 : ptr + 6 ≤ buf.length
          · rw [if_pos h4]; exact ih buf (ptr + 6) _ (by omega)
          · rw [if_neg h4]; rfl
        · rw [if_neg h3]; rfl
      · rw [if_neg h2]; rfl
    · rw [if_neg hb]
      by_cases h0 : buf.getD ptr 0 = 0
      · rw [if_pos h0]
        by_cases h5 : ptr + 5 ≤ buf.length
        · rw [if_pos h5]; exact ih buf (ptr + 5) _ (by omega)
        · rw [if_neg h5]; rfl
      · rw [if_neg h0]
        by_cases h6 : ptr + 1 + buf.getD ptr 0 ≤ buf.length
        · rw [if_pos h6]; exact ih buf _ _ (by omega)
        · rw [if_neg h6]; rfl

/-- Witness for C1 (amended): fuel 3 suffices for a 3-byte buffer from
position 0. -/
theorem C1_witness : (decompressGo [1, 2, 3] 3 0 []).isSome = true :=
  C1_terminates_bounded 3 [1, 2, 3] 0 [] (by decide)

/-- C1 counterexample: `cycBuf`'s compression-pointer chain forms a cycle
(offset 12 points to offset 14, offset 14 points back to offset 12), yet
`DNSHdr::decompress_names` returns successfully (`some …`, i.e. `Ok`), not an
error: the claim "returns an error" is false on this input. -/
theorem C1_counterexample :
    cycBuf.getD 12 0 &&& 192 ≠ 0 ∧
      ((cycBuf.getD 12 0 &&& 63) <<< 8) + cycBuf.getD 13 0 = 14 ∧
      cycBuf.getD 14 0 &&& 192 ≠ 0 ∧
      ((cycBuf.getD 14 0 &&& 63) <<< 8) + cycBuf.getD 15 0 = 12 ∧
      DNSHdr.decompress_names cycBuf =
        some (List.replicate 12 0 ++ [192, 12, 1, 1, 0, 192, 12, 1, 1]) := by decide

/-- C4 counterexample: decoding the test buffer does NOT yield
`["abc", …, "com"]` and `["def", "abc", …, "com"]` as the claim states — the
pointer to offset 16 targets the long label, which lies past `"abc"` (offset
12), so no `"abc"` is spliced into the second name.  Stated both with the
claim's 18-letter spelling `"longassdomainnname"` of the long label and with
the source's actual 17-byte label `"longassdomainname"`, so the refutation
does not rest on the claim's spelling slip. -/
theorem C4_counterexample :
    (DNSHdr.decompress_names testBuf).bind (fun d => Query.from_bytes 2 (d.drop 12)) ≠
        some
          ([{ name := [str "abc", str "longassdomainnname", str "com"], qtype := 1,
              qclass := 1 },
            { name := [str "def", str "abc", str "longassdomainnname", str "com"], qtype := 1,
              qclass := 1 }],
           []) ∧
      (DNSHdr.decompress_names testBuf).bind (fun d => Query.from_bytes 2 (d.drop 12)) ≠
        some
          ([{ name := [str "abc", str "longassdomainname", str "com"], qtype := 1,
              qclass := 1 },
            { name := [str "def", str "abc", str "longassdomainname", str "com"], qtype := 1,
              qclass := 1 }],
           []) := by decide

/-- C4 (amended): decompressing the test buffer (two questions, the second
ending in the compression pointer `[192, 16]` to offset 16) and then decoding
two queries yields the names `["abc", "longassdomainname", "com"]` and
`["def", "longassdomainname", "com"]` — the pointer splices in only the
suffix found at the referenced offset (offset 16 is the length byte of the
long label, past `"abc"`), not the whole first name. -/
theorem C4_name_expansion :
    (DNSHdr.decompress_names testBuf).bind (fun d => Query.from_bytes 2 (d.drop 12)) =
      some
        ([{ name := [str "abc", str "longassdomainname", str "com"], qtype := 1, qclass := 1 },
          { name := [str "def", str "longassdomainname", str "com"], qtype := 1, qclass := 1 }],
         []) := by decide

/-! ## Label decoding behaviour on pointer-looking tag bytes -/

/-- Fuel does not matter once it is at least the buffer length: the
fuel-exhaustion branch of `parse_labels_go` is dead for the `buf.length` fuel
that `parse_labels` supplies. -/
theorem parse_labels_go_fuel :
    ∀ (f1 : Nat) (buf : List Nat) (f2 : Nat), buf.length ≤ f1 → buf.length ≤ f2 →
      parse_labels_go f1 buf = parse_labels_go f2 buf := by
  intro f1
  induction f1 with
  | zero =>
    intro buf f2 h1 _
    have : buf = [] := List.length_eq_zero.mp (by omega)
    subst this
    cases f2 <;> rfl
  | succ f1 ih =>
    intro buf f2 h1 h2
    cases buf with
    | nil => cases f2 <;> rfl
    | cons n r =>
      cases f2 with
      | zero => simp at h2
      | succ f2 =>
        simp only [parse_labels_go]
        by_cases h0 : n = 0
        · simp [h0]
        · rw [if_neg h0, if_neg h0]
          by_cases hle : n ≤ r.length
          · rw [if_pos hle, if_pos hle]
            rw [ih (r.drop n) f2 (by simp at h1 ⊢; omega) (by simp at h2 ⊢; omega)]
          · rw [if_neg hle, if_neg hle]

/-- A nonzero tag byte `b` at adequate fuel is consumed by the label loop as a
plain label length: `b` raw bytes follow as the label, then decoding continues
(here: hits the zero terminator). -/
theorem parse_labels_go_label (fuel b : Nat) (content rest : List Nat)
    (hb : b ≠ 0) (hlen : content.length = b)
    (hfuel : content.length + 1 + rest.length ≤ fuel) :
    parse_labels_go (fuel + 1) (b :: (content ++ 0 :: rest)) = some ([content], rest) := by
  have hle : b ≤ (content ++ 0 :: rest).length := by simp; omega
  simp only [parse_labels_go, if_neg hb, if_pos hle]
  subst hlen
  rw [List.take_left, List.drop_left]
  cases fuel with
  | zero => omega
  | succ f => simp [parse_labels_go]

/-- A nonzero tag byte `b` is always consumed by `parse_labels` as a plain
label length: `b` raw bytes follow, then decoding continues (here: hits the
zero terminator). -/
theorem parse_labels_label (b : Nat) (content rest : List Nat)
    (hb : b ≠ 0) (hlen : content.length = b) :
    parse_labels (b :: (content ++ 0 :: rest)) = some ([content], rest) := by
  unfold parse_labels
  have hl : (b :: (content ++ 0 :: rest)).length = (content.length + 1 + rest.length) + 1 := by
    simp; omega
  rw [hl]
  exact parse_labels_go_label _ b content rest hb hlen (by omega)

/-- C5 counterexample: the tag byte `65 = 0b01000001` (pattern `0b01xxxxxx`)
does NOT make name decoding fail with an `InvalidLabelLength` error:
`parse_labels` consumes it as a plain label length of 65 and succeeds, and
`decompress_names` (on `ptr64Buf`, whose tag byte is `64 = 0b01000000`)
treats it as the first byte of a compression pointer and succeeds. -/
theorem C5_counterexample :
    (65 &&& 192 = 64) ∧
      parse_labels (65 :: (List.replicate 65 97 ++ 0 :: [])) =
        some ([List.replicate 65 97], []) ∧
      (64 &&& 192 = 64) ∧ ptr64Buf.getD 12 0 = 64 ∧
      DNSHdr.decompress_names ptr64Buf =
        some (List.replicate 12 0 ++ [1, 2, 0, 1, 2, 0, 9]) := by decide

/-- C5 (amended): no `InvalidLabelLength` error exists.  A tag byte with
pattern `0b01xxxxxx` or `0b10xxxxxx` is consumed by `parse_labels` as a plain
label length (that many raw bytes are read as the label and decoding
succeeds); `decompress_names` instead treats any such byte as the first byte
of a compression pointer (see the counterexample's `ptr64Buf` conjunct). -/
theorem C5_mixed_tag_is_length (b : Nat) (content rest : List Nat)
    (hb : b &&& 192 = 64 ∨ b &&& 192 = 128) (hlen : content.length = b) :
    parse_labels (b :: (content ++ 0 :: rest)) = some ([content], rest) := by
  have hb0 : b ≠ 0 := by
    rintro rfl
    rcases hb with h | h <;> simp at h
  exact parse_labels_label b content rest hb0 hlen

/-- Witness for C5 (amended) at tag byte `130 = 0b10000010`. -/
theorem C5_witness :
    parse_labels (130 :: (List.replicate 130 3 ++ 0 :: [2, 2])) =
      some ([List.replicate 130 3], [2, 2]) :=
  C5_mixed_tag_is_length 130 (List.replicate 130 3) [2, 2] (by decide) (by simp)

/-- C10: the decode path the server actually uses (`DNSHdr::from_bytes` via
`parse_labels`) never interprets compression pointers: (1) a tag byte `b ≥
192` (`0b11xxxxxx`) is consumed as a plain label length and `b` raw bytes are
read as the label; (2) if fewer than `b` bytes remain the parse fails
(truncation), rather than following a pointer; (3) concretely, the server's
`from_bytes` fails on `testBuf` (whose second name ends in the pointer
`[192, 16]` that `decompress_names` would expand) because only 5 bytes follow
the 192 tag. -/
theorem C10_no_pointer_decoding :
    (∀ (b : Nat) (content rest : List Nat), 192 ≤ b → content.length = b →
        parse_labels (b :: (content ++ 0 :: rest)) = some ([content], rest)) ∧
      (∀ (b : Nat) (rest : List Nat), 192 ≤ b → rest.length < b →
        parse_labels (b :: rest) = none) ∧
      DNSHdr.from_bytes testBuf = none := by
  refine ⟨?_, ?_, by decide⟩
  · intro b content rest hb hlen
    exact parse_labels_label b content rest (by omega) hlen
  · intro b rest hb hlt
    unfold parse_labels
    cases h : (b :: rest).length with
    | zero => simp at h
    | succ f =>
      simp only [parse_labels_go, if_neg (show b ≠ 0 by omega)]
      rw [if_neg (by omega)]

/-- Witness for C10 at tag byte 200: consumed as a 200-byte label when enough
bytes follow, a parse error when not. -/
theorem C10_witness :
    parse_labels (200 :: (List.replicate 200 1 ++ 0 :: [])) =
        some ([List.replicate 200 1], []) ∧
      parse_labels (200 :: [7, 7, 7]) = none :=
  ⟨C10_no_pointer_decoding.1 200 (List.replicate 200 1) [] (by decide)
      (by simp only [List.length_replicate]),
   C10_no_pointer_decoding.2.1 200 [7, 7, 7] (by decide) (by decide)⟩

/-! ## Encode/decode round-trip lemmas -/

/-- In-range flags round-trip and fit in 16 bits. -/
theorem flags_roundtrip_aux (f : Flags) (h : f.inRange) :
    parse_flags f.compress_u16 = f ∧ f.compress_u16 < 65536 := by
  obtain ⟨qr, op, aa, tc, rd, ra, rc⟩ := f
  simp only [Flags.inRange] at h
  obtain ⟨h1, h2, h3, h4, h5, h6, h7⟩ := h
  exact flags_rt_fin ⟨qr, by omega⟩ ⟨op, by omega⟩ ⟨aa, by omega⟩ ⟨tc, by omega⟩
    ⟨rd, by omega⟩ ⟨ra, by omega⟩ ⟨rc, by omega⟩

/-- Lemma: `be_u16` undoes `put_u16` for 16-bit values. -/
theorem be_u16_bytes (x : Nat) (hx : x < 65536) :
    ∀ rest, be_u16 (u16Bytes x ++ rest) = some (x, rest) := by
  intro rest
  simp [u16Bytes, be_u16]
  omega

/-- Lemma: `be_u32` undoes `put_u32` for 32-bit values. -/
theorem be_u32_bytes (x : Nat) (hx : x < 4294967296) :
    ∀ rest, be_u32 (u32Bytes x ++ rest) = some (x, rest) := by
  intro rest
  simp [u32Bytes, be_u32]
  omega

/-- Lemma: `length_data(be_u16)` undoes a u16 length prefix plus payload. -/
theorem length_data_u16_bytes (data : List Nat) (h : data.length < 65536) :
    ∀ rest, length_data_u16 (u16Bytes data.length ++ (data ++ rest)) = some (data, rest) := by
  intro rest
  simp only [length_data_u16, be_u16_bytes data.length h]
  rw [if_pos (by simp)]
  rw [List.take_left, List.drop_left]

/-- The label loop undoes `encodeName` (at adequate fuel). -/
theorem parse_labels_go_encodeName :
    ∀ (name : List (List Nat)), (∀ l ∈ name, l.length ≠ 0 ∧ l.length ≤ 255) →
      ∀ (fuel : Nat) (rest : List Nat), (encodeName name ++ 0 :: rest).length ≤ fuel →
        parse_labels_go fuel (encodeName name ++ 0 :: rest) = some (name, rest) := by
  intro name
  induction name with
  | nil =>
    intro _ fuel rest hfuel
    have he : encodeName [] = [] := rfl
    rw [he] at hfuel ⊢
    simp only [List.nil_append] at hfuel ⊢
    cases fuel with
    | zero => simp at hfuel
    | succ f => simp [parse_labels_go]
  | cons l tl ih =>
    intro hval fuel rest hfuel
    have hl0 : l.length ≠ 0 := (hval l (by simp)).1
    have hl255 : l.length ≤ 255 := (hval l (by simp)).2
    have hmod : l.length % 256 = l.length := Nat.mod_eq_of_lt (by omega)
    have hbuf :
        encodeName (l :: tl) ++ 0 :: rest =
          l.length % 256 :: (l ++ (encodeName tl ++ 0 :: rest)) := by
      simp [encodeName, List.append_assoc]
    rw [hbuf] at hfuel ⊢
    rw [hmod] at hfuel ⊢
    cases fuel with
    | zero => simp at hfuel
    | succ f =>
      simp only [parse_labels_go]
      rw [if_neg hl0]
      rw [if_pos (by simp : l.length ≤ (l ++ (encodeName tl ++ 0 :: rest)).length)]
      rw [List.take_left, List.drop_left]
      rw [ih (fun x hx => hval x (by simp [hx])) f rest (by simp at hfuel ⊢; omega)]

/-- Lemma: `parse_labels` undoes `encodeName`: the decode side of an uncompressed
name written by the encoder. -/
theorem parse_labels_encodeName (name : List (List Nat))
    (hval : ∀ l ∈ name, l.length ≠ 0 ∧ l.length ≤ 255) :
    ∀ rest, parse_labels (encodeName name ++ 0 :: rest) = some (name, rest) := by
  intro rest
  unfold parse_labels
  exact parse_labels_go_encodeName name hval _ rest (le_refl _)

/-- A valid name's labels are nonempty and below 256 bytes. -/
theorem validName_le (name : List (List Nat)) (h : validName name) :
    ∀ l ∈ name, l.length ≠ 0 ∧ l.length ≤ 255 := by
  intro l hl
  have := h l hl
  omega

/-- One question decodes back from its own encoding. -/
theorem queryParseOne_toBytes (q : Query) (h : q.valid) :
    ∀ rest, Query.parseOne (q.to_bytes ++ rest) = some (q, rest) := by
  intro rest
  obtain ⟨name, qt, qc⟩ := q
  simp only [Query.valid] at h
  obtain ⟨hname, hel, hqt, hqc⟩ := h
  simp only [Query.to_bytes, Query.parseOne, List.append_assoc, List.singleton_append,
    List.cons_append, List.nil_append,
    parse_labels_encodeName name (validName_le name hname), be_u16_bytes qt hqt,
    be_u16_bytes qc hqc]

/-- A question list decodes back from its own encoding, given its length as
the count. -/
theorem queryList_toBytes :
    ∀ (qs : List Query), (∀ q ∈ qs, q.valid) →
      ∀ rest, Query.from_bytes qs.length ((qs.map Query.to_bytes).flatten ++ rest) =
        some (qs, rest) := by
  intro qs
  induction qs with
  | nil => intro _ rest; simp [Query.from_bytes]
  | cons q qs ih =>
    intro hval rest
    simp only [List.map_cons, List.flatten_cons, List.length_cons, List.append_assoc]
    simp only [Query.from_bytes, queryParseOne_toBytes q (hval q (by simp)),
      ih (fun x hx => hval x (by simp [hx]))]

/-- One resource record decodes back from its own encoding. -/
theorem answerParseOne_toBytes (a : Answer) (h : a.valid) :
    ∀ rest, Answer.parseOne (a.to_bytes ++ rest) = some (a, rest) := by
  intro rest
  obtain ⟨name, qt, qc, ttl, rdd⟩ := a
  simp only [Answer.valid] at h
  obtain ⟨hname, hel, hqt, hqc, httl, hrdd⟩ := h
  simp only [Answer.to_bytes, Answer.parseOne, List.append_assoc, List.singleton_append,
    List.cons_append, List.nil_append,
    parse_labels_encodeName name (validName_le name hname), be_u16_bytes qt hqt,
    be_u16_bytes qc hqc, be_u32_bytes ttl httl, length_data_u16_bytes rdd hrdd]

/-- A record list decodes back from its own encoding. -/
theorem answerList_toBytes :
    ∀ (as' : List Answer), (∀ a ∈ as', a.valid) →
      ∀ rest, Answer.from_bytes as'.length ((as'.map Answer.to_bytes).flatten ++ rest) =
        some (as', rest) := by
  intro as'
  induction as' with
  | nil => intro _ rest; simp [Answer.from_bytes]
  | cons a as' ih =>
    intro hval rest
    simp only [List.map_cons, List.flatten_cons, List.length_cons, List.append_assoc]
    simp only [Answer.from_bytes, answerParseOne_toBytes a (hval a (by simp)),
      ih (fun x hx => hval x (by simp [hx]))]

/-- C3: for every valid message `m` (names of 1–63-byte labels totalling at
most 255 encoded bytes, 16/32-bit numeric fields in range) the encoding —
which never compresses — decodes back to `m` itself with no bytes left over:
`from_bytes (to_bytes m) = some (m, [])`, so decode ∘ encode is the identity
on id, flags, questions and answers (and the nscount/arcount fields too). -/
theorem C3_roundtrip (m : DNSHdr) (h : m.valid) :
    DNSHdr.from_bytes m.to_bytes = some (m, []) := by
  obtain ⟨id, flags, ns, ar, qs, as'⟩ := m
  simp only [DNSHdr.valid] at h
  obtain ⟨hid, hfl, hns, har, hql, hal, hqs, has⟩ := h
  obtain ⟨hflrt, hfllt⟩ := flags_roundtrip_aux flags hfl
  simp only [DNSHdr.to_bytes, DNSHdr.from_bytes, List.append_assoc]
  rw [show (as'.map Answer.to_bytes).flatten = (as'.map Answer.to_bytes).flatten ++ [] from
    (List.append_nil _).symm]
  simp only [be_u16_bytes id hid, be_u16_bytes flags.compress_u16 hfllt,
    be_u16_bytes qs.length hql, be_u16_bytes as'.length hal, be_u16_bytes ns hns,
    be_u16_bytes ar har, queryList_toBytes qs hqs, answerList_toBytes as' has,
    hflrt]

/-- Witness for C3 at a concrete valid one-question one-answer message. -/
theorem C3_witness :
    DNSHdr.from_bytes
        (DNSHdr.to_bytes
          { id := 1234
            flags := { qr := 0, opcode := 0, aa := 0, tc := 0, rd := 1, ra := 0, rcode := 0 }
            nscount := 0
            arcount := 0
            queries := [{ name := [str "abc", str "io"], qtype := 1, qclass := 1 }]
            answers :=
              [{ name := [str "abc", str "io"], qtype := 1, qclass := 1, ttl := 60,
                 rddata := [192, 168, 10, 10] }] }) =
      some
        ({ id := 1234
           flags := { qr := 0, opcode := 0, aa := 0, tc := 0, rd := 1, ra := 0, rcode := 0 }
           nscount := 0
           arcount := 0
           queries := [{ name := [str "abc", str "io"], qtype := 1, qclass := 1 }]
           answers :=
             [{ name := [str "abc", str "io"], qtype := 1, qclass := 1, ttl := 60,
                rddata := [192, 168, 10, 10] }] }, []) :=
  C3_roundtrip _ (by decide)

/-! ## Server behaviour -/

/-- C2: evaluation at the failing inputs.  The no-resolver lookup hard-codes
the key `"codecrafters.io"` instead of the question's own domain: a query for
`stackoverflow.com` — present in the store with address 192.168.10.20 — is
answered with codecrafters.io's address 192.168.10.10, and a query for
`example.com` — absent from the store — receives an answer too (instead of
none), again with 192.168.10.10. -/
theorem C2_code_bug_eval :
    Store.get initStore (str "stackoverflow.com") = some (60, [192, 168, 10, 20]) ∧
      Query.domain { name := [str "stackoverflow", str "com"], qtype := 1, qclass := 1 } =
        str "stackoverflow.com" ∧
      (handleRequest none initStore
            (DNSHdr.new 7 { qr := 0, opcode := 0, aa := 0, tc := 0, rd := 1, ra := 0, rcode := 0 }
              [{ name := [str "stackoverflow", str "com"], qtype := 1, qclass := 1 }]
              [])).2.2.answers =
        [Answer.new [str "stackoverflow", str "com"] 1 1 60 [192, 168, 10, 10]] ∧
      Store.get initStore (str "example.com") = none ∧
      (handleRequest none initStore
            (DNSHdr.new 8 { qr := 0, opcode := 0, aa := 0, tc := 0, rd := 1, ra := 0, rcode := 0 }
              [{ name := [str "example", str "com"], qtype := 1, qclass := 1 }]
              [])).2.2.answers =
        [Answer.new [str "example", str "com"] 1 1 60 [192, 168, 10, 10]] := by decide

/-- C8: for every decoded request whose opcode is nonzero — whatever the
store and whether a forwarding resolver is configured — the response has
`rcode = NotImplemented (4)`, `qr = 1`, `aa = 0`, an empty answer section and
the request's questions echoed back unchanged. -/
theorem C8_not_implemented (resolver : Option Resolver) (rr_db : Store) (req : DNSHdr)
    (h : req.flags.opcode ≠ 0) :
    (handleRequest resolver rr_db req).2.2.flags.rcode = 4 ∧
      (handleRequest resolver rr_db req).2.2.flags.qr = 1 ∧
      (handleRequest resolver rr_db req).2.2.flags.aa = 0 ∧
      (handleRequest resolver rr_db req).2.2.answers = [] ∧
      (handleRequest resolver rr_db req).2.2.queries = req.queries := by
  unfold handleRequest
  cases hop : req.flags.opcode with
  | zero => exact absurd hop h
  | succ n => simp [DNSHdr.new]

/-- Witness for C8: a concrete IQUERY (opcode 1) request. -/
theorem C8_witness :
    (handleRequest none initStore
          (DNSHdr.new 5 { qr := 0, opcode := 1, aa := 0, tc := 0, rd := 1, ra := 0, rcode := 0 }
            [{ name := [str "abc", str "io"], qtype := 1, qclass := 1 }] [])).2.2.flags.rcode =
        4 ∧
      (handleRequest none initStore
          (DNSHdr.new 5 { qr := 0, opcode := 1, aa := 0, tc := 0, rd := 1, ra := 0, rcode := 0 }
            [{ name := [str "abc", str "io"], qtype := 1, qclass := 1 }] [])).2.2.flags.qr = 1 ∧
      (handleRequest none initStore
          (DNSHdr.new 5 { qr := 0, opcode := 1, aa := 0, tc := 0, rd := 1, ra := 0, rcode := 0 }
            [{ name := [str "abc", str "io"], qtype := 1, qclass := 1 }] [])).2.2.flags.aa = 0 ∧
      (handleRequest none initStore
          (DNSHdr.new 5 { qr := 0, opcode := 1, aa := 0, tc := 0, rd := 1, ra := 0, rcode := 0 }
            [{ name := [str "abc", str "io"], qtype := 1, qclass := 1 }] [])).2.2.answers = [] ∧
      (handleRequest none initStore
          (DNSHdr.new 5 { qr := 0, opcode := 1, aa := 0, tc := 0, rd := 1, ra := 0, rcode := 0 }
            [{ name := [str "abc", str "io"], qtype := 1, qclass := 1 }] [])).2.2.queries =
        [{ name := [str "abc", str "io"], qtype := 1, qclass := 1 }] :=
  C8_not_implemented none initStore
    (DNSHdr.new 5 { qr := 0, opcode := 1, aa := 0, tc := 0, rd := 1, ra := 0, rcode := 0 }
      [{ name := [str "abc", str "io"], qtype := 1, qclass := 1 }] []) (by decide)

/-! ## Store lemmas and the forwarding path (C9) -/

/-- Lemma: `extend` processes its first pair first. -/
theorem Store.extend_cons (s : Store) (a : List Nat × (Nat × List Nat))
    (t : List (List Nat × (Nat × List Nat))) :
    Store.extend s (a :: t) = Store.extend (s.insert a.1 a.2) t := rfl

/-- Lemma: `get` after `insert`. -/
theorem Store.get_insert (s : Store) (k : List Nat) (v : Nat × List Nat) (k' : List Nat) :
    Store.get (s.insert k v) k' = if k = k' then some v else s.get k' := rfl

/-- Extending with pairs whose keys all differ from `k` leaves `get k`
unchanged. -/
theorem Store.get_extend_not_mem :
    ∀ (kvs : List (List Nat × (Nat × List Nat))) (s : Store) (k : List Nat),
      (∀ kv ∈ kvs, kv.1 ≠ k) → Store.get (s.extend kvs) k = s.get k := by
  intro kvs
  induction kvs with
  | nil => intro s k _; rfl
  | cons a t ih =>
    intro s k hne
    rw [Store.extend_cons]
    rw [ih (s.insert a.1 a.2) k (fun kv hkv => hne kv (by simp [hkv]))]
    rw [Store.get_insert]
    rw [if_neg (hne a (by simp))]

/-- Extending with pairs among which key `k` occurs, always with value `v`,
makes `get k` return `v`. -/
theorem Store.get_extend_uniform :
    ∀ (kvs : List (List Nat × (Nat × List Nat))) (s : Store) (k : List Nat)
      (v : Nat × List Nat),
      (∃ kv ∈ kvs, kv.1 = k) → (∀ kv ∈ kvs, kv.1 = k → kv.2 = v) →
      Store.get (s.extend kvs) k = some v := by
  intro kvs
  induction kvs with
  | nil =>
    rintro s k v ⟨kv, hkv, _⟩ _
    simp at hkv
  | cons a t ih =>
    rintro s k v hex huni
    rw [Store.extend_cons]
    by_cases hexT : ∃ kv ∈ t, kv.1 = k
    · exact ih (s.insert a.1 a.2) k v hexT (fun kv hkv hk => huni kv (by simp [hkv]) hk)
    · have ha : a.1 = k := by
        rcases hex with ⟨kv, hkv, hk⟩
        rcases List.mem_cons.mp hkv with rfl | hmem
        · exact hk
        · exact absurd ⟨kv, hmem, hk⟩ hexT
      have hnotT : ∀ kv ∈ t, kv.1 ≠ k := fun kv hkv hk => hexT ⟨kv, hkv, hk⟩
      rw [Store.get_extend_not_mem t (s.insert a.1 a.2) k hnotT]
      rw [Store.get_insert, if_pos ha, huni a (by simp) ha]

/-- Lemma: `filterMap` over a function that succeeds everywhere keeps the length. -/
theorem filterMap_length_all {α β : Type} (f : α → Option β) :
    ∀ l : List α, (∀ a ∈ l, (f a).isSome = true) → (l.filterMap f).length = l.length := by
  intro l
  induction l with
  | nil => intro _; rfl
  | cons a t ih =>
    intro h
    rw [List.filterMap_cons]
    cases hf : f a with
    | none =>
      have := h a (by simp)
      rw [hf] at this
      simp at this
    | some b => simp [ih (fun x hx => h x (by simp [hx]))]

/-- The opcode-0 resolver arm of `handleRequest`, spelled out. -/
theorem handleRequest_resolver (res : Resolver) (rr_db : Store) (req : DNSHdr)
    (hop : req.flags.opcode = 0) :
    handleRequest (some res) rr_db req =
      ((resolverAnswers res rr_db req.queries).1,
        (resolverAnswers res rr_db req.queries).2.1,
        DNSHdr.new req.id { req.flags with qr := 1, aa := 0, tc := 0, ra := 0, rcode := 0 }
          req.queries (resolverAnswers res rr_db req.queries).2.2) := by
  unfold handleRequest
  rw [hop]

/-- The upstream requests sent by the resolver arm. -/
theorem resolverAnswers_sent (res : Resolver) (rr_db : Store) (queries : List Query) :
    (resolverAnswers res rr_db queries).1 =
      (queries.filter (fun q => !(rr_db.get q.domain).isSome)).enum.map
        (fun kq => resolveARequest (res.idGen kq.1) kq.2.name) := rfl

/-- The extended store produced by the resolver arm. -/
theorem resolverAnswers_store (res : Resolver) (rr_db : Store) (queries : List Query) :
    (resolverAnswers res rr_db queries).2.1 =
      rr_db.extend
        (((queries.filter (fun q => !(rr_db.get q.domain).isSome)).map
              (fun q => (q, res.upstream q.name))).map
          (fun qa => (qa.1.domain, qa.2))) := rfl

/-- The answers produced by the resolver arm: one per question the extended
store now resolves. -/
theorem resolverAnswers_answs (res : Resolver) (rr_db : Store) (queries : List Query) :
    (resolverAnswers res rr_db queries).2.2 =
      queries.filterMap (fun q =>
        (((resolverAnswers res rr_db queries).2.1).get q.domain).map
          (fun td => Answer.new q.name 1 1 td.1 td.2)) := rfl

/-- C9: handling an opcode-0 request with a forwarding resolver configured
(the upstream exchange and the rng abstracted as oracles `res.upstream` /
`res.idGen`): (1) exactly one upstream query is sent per question whose
domain is absent from the store; (2) every sent upstream query has `rd = 0`,
`qr = 0`, opcode QUERY and a single question; (3) each absent question's
domain is afterwards bound in the store to the `(ttl, addr)` the upstream
oracle returned for its name; (4) present entries are untouched; (5) handling
the same request again against the updated store sends NO upstream query; and
(6) that second response answers every question from the store.  (The
`hdom` hypothesis — questions with equal domain strings have equal label
sequences — rules out two distinct names colliding on one domain key.) -/
theorem C9_forwarding (res : Resolver) (rr_db : Store) (req : DNSHdr)
    (hop : req.flags.opcode = 0)
    (hdom : ∀ q ∈ req.queries, ∀ q' ∈ req.queries, q.domain = q'.domain → q.name = q'.name) :
    (handleRequest (some res) rr_db req).1.length =
        (req.queries.filter (fun q => !(rr_db.get q.domain).isSome)).length ∧
      (∀ r ∈ (handleRequest (some res) rr_db req).1,
        r.flags.rd = 0 ∧ r.flags.qr = 0 ∧ r.flags.opcode = 0 ∧ r.queries.length = 1) ∧
      (∀ q ∈ req.queries, (rr_db.get q.domain).isSome = false →
        Store.get (handleRequest (some res) rr_db req).2.1 q.domain =
          some (res.upstream q.name)) ∧
      (∀ q ∈ req.queries, (rr_db.get q.domain).isSome = true →
        Store.get (handleRequest (some res) rr_db req).2.1 q.domain = rr_db.get q.domain) ∧
      (handleRequest (some res) (handleRequest (some res) rr_db req).2.1 req).1 = [] ∧
      (handleRequest (some res)
            (handleRequest (some res) rr_db req).2.1 req).2.2.answers.length =
        req.queries.length := by
  have hmemP : ∀ q : Query,
      q ∈ req.queries.filter (fun q => !(rr_db.get q.domain).isSome) ↔
        q ∈ req.queries ∧ (rr_db.get q.domain).isSome = false := by
    intro q
    simp [List.mem_filter]
  have hstore_absent : ∀ q ∈ req.queries, (rr_db.get q.domain).isSome = false →
      Store.get (resolverAnswers res rr_db req.queries).2.1 q.domain =
        some (res.upstream q.name) := by
    intro q hq habs
    rw [resolverAnswers_store]
    apply Store.get_extend_uniform
    · refine ⟨(q.domain, res.upstream q.name), ?_, rfl⟩
      simp only [List.mem_map]
      exact ⟨(q, res.upstream q.name), ⟨q, (hmemP q).mpr ⟨hq, habs⟩, rfl⟩, rfl⟩
    · rintro kv hkv hk
      simp only [List.mem_map] at hkv
      obtain ⟨qa, hqa, rfl⟩ := hkv
      obtain ⟨q', hq', rfl⟩ := hqa
      have hq'mem := (hmemP q').mp hq'
      have hname : q'.name = q.name := hdom q' hq'mem.1 q hq hk
      simp [hname]
  have hstore_present : ∀ q ∈ req.queries, (rr_db.get q.domain).isSome = true →
      Store.get (resolverAnswers res rr_db req.queries).2.1 q.domain = rr_db.get q.domain := by
    intro q hq hpres
    rw [resolverAnswers_store]
    apply Store.get_extend_not_mem
    rintro kv hkv hk
    simp only [List.mem_map] at hkv
    obtain ⟨qa, hqa, rfl⟩ := hkv
    obtain ⟨q', hq', rfl⟩ := hqa
    dsimp only at hk
    have habs : (rr_db.get q'.domain).isSome = false := ((hmemP q').mp hq').2
    rw [hk] at habs
    rw [hpres] at habs
    exact Bool.noConfusion habs
  have hall : ∀ q ∈ req.queries,
      (Store.get (resolverAnswers res rr_db req.queries).2.1 q.domain).isSome = true := by
    intro q hq
    by_cases hp : (rr_db.get q.domain).isSome = true
    · rw [hstore_present q hq hp]
      exact hp
    · have hp' : (rr_db.get q.domain).isSome = false := by
        simpa using hp
      rw [hstore_absent q hq hp']
      rfl
  have hP2 : req.queries.filter
      (fun q => !(Store.get (resolverAnswers res rr_db req.queries).2.1 q.domain).isSome) =
        [] := by
    rw [List.filter_eq_nil_iff]
    intro q hq
    simp [hall q hq]
  rw [handleRequest_resolver res rr_db req hop]
  refine ⟨?_, ?_, ?_, ?_, ?_, ?_⟩
  · rw [resolverAnswers_sent]
    simp
  · intro r hr
    rw [resolverAnswers_sent] at hr
    simp only [List.mem_map] at hr
    obtain ⟨kq, _, rfl⟩ := hr
    simp [resolveARequest, DNSHdr.new]
  · exact hstore_absent
  · exact hstore_present
  · rw [handleRequest_resolver res _ req hop]
    rw [resolverAnswers_sent]
    rw [hP2]
    rfl
  · rw [handleRequest_resolver res _ req hop]
    show (DNSHdr.new _ _ _ _).answers.length = _
    rw [show (DNSHdr.new req.id
        { req.flags with qr := 1, aa := 0, tc := 0, ra := 0, rcode := 0 } req.queries
        (resolverAnswers res (resolverAnswers res rr_db req.queries).2.1
          req.queries).2.2).answers =
      (resolverAnswers res (resolverAnswers res rr_db req.queries).2.1 req.queries).2.2 from
      rfl]
    have hst3 : (resolverAnswers res (resolverAnswers res rr_db req.queries).2.1
        req.queries).2.1 = (resolverAnswers res rr_db req.queries).2.1 := by
      rw [resolverAnswers_store]
      rw [hP2]
      rfl
    rw [resolverAnswers_answs, hst3]
    apply filterMap_length_all
    intro q hq
    simp [hall q hq]

/-- Witness for C9: one unresolved `example.com` question against the seeded
store, with a concrete oracle. -/
theorem C9_witness :
    (handleRequest (some exampleResolver) initStore exampleReq).1.length =
        (exampleReq.queries.filter
            (fun q => !(Store.get initStore q.domain).isSome)).length ∧
      (∀ r ∈ (handleRequest (some exampleResolver) initStore exampleReq).1,
        r.flags.rd = 0 ∧ r.flags.qr = 0 ∧ r.flags.opcode = 0 ∧ r.queries.length = 1) ∧
      (∀ q ∈ exampleReq.queries, (Store.get initStore q.domain).isSome = false →
        Store.get (handleRequest (some exampleResolver) initStore exampleReq).2.1 q.domain =
          some (exampleResolver.upstream q.name)) ∧
      (∀ q ∈ exampleReq.queries, (Store.get initStore q.domain).isSome = true →
        Store.get (handleRequest (some exampleResolver) initStore exampleReq).2.1 q.domain =
          Store.get initStore q.domain) ∧
      (handleRequest (some exampleResolver)
          (handleRequest (some exampleResolver) initStore exampleReq).2.1 exampleReq).1 = [] ∧
      (handleRequest (some exampleResolver)
            (handleRequest (some exampleResolver) initStore exampleReq).2.1
            exampleReq).2.2.answers.length =
        exampleReq.queries.length :=
  C9_forwarding exampleResolver initStore exampleReq rfl (by decide)
